import Mathlib

/-!
Shallow embedding of the battleship rules engine (src/direction.rs, src/space.rs,
src/ship.rs, src/player.rs, src/game.rs) and proofs about its claimed properties.

Conventions of the embedding:
* grid coordinates (`u8` in the source) are modelled as `Nat`; every subtraction in
  the source is guarded so that, under the grid-size hypotheses carried by the
  theorems (positive width/height), truncated `Nat` subtraction agrees with `u8`
  subtraction;
* a Rust `Result<T, &'static str>` becomes `RResult T`; a Rust panic (out-of-bounds
  index, unwrap of `None`, usize underflow) becomes `RResult.panics`, which is kept
  distinct from `RResult.err`.
-/

namespace Battleship

/-- A grid position, `[u8; 2]` in the source: `(x, y)`. -/
abbrev Pos := Nat × Nat

/-- Outcome of a Rust computation: normal value, `Err` value, or panic. -/
inductive RResult (α : Type) where
  | panics : RResult α
  | err : String → RResult α
  | ok : α → RResult α
deriving DecidableEq, Repr

/-- `|a - b|` on `Nat`, as computed in the source via `i16` casts. -/
def natAbsDiff (a b : Nat) : Nat := ((a : Int) - (b : Int)).natAbs

/-- `Direction` enum (direction.rs). -/
inductive Direction where
  | north | east | south | west
deriving DecidableEq, Repr

/-- `Direction::opposite` (direction.rs:12-19). -/
def Direction.opposite : Direction → Direction
  | .north => .south
  | .east => .west
  | .south => .north
  | .west => .east

/-- `Direction::rotated` (direction.rs:21-28), 90 degrees clockwise. -/
def Direction.rotated : Direction → Direction
  | .north => .east
  | .east => .south
  | .south => .west
  | .west => .north

/-- `Direction::all` (direction.rs:30-37). -/
def Direction.all : List Direction := [.north, .east, .south, .west]

/-- `Direction::from_positions` (direction.rs:52-67).  The signed differences are
computed in `i16` in the source; `Int` here. -/
def Direction.from_positions (pos1 pos2 : Pos) : RResult Direction :=
  let x_diff : Int := (pos1.1 : Int) - (pos2.1 : Int)
  let y_diff : Int := (pos1.2 : Int) - (pos2.2 : Int)
  if x_diff = 0 ∧ y_diff > 0 then .ok .north
  else if x_diff = 0 ∧ y_diff < 0 then .ok .south
  else if x_diff > 0 ∧ y_diff = 0 then .ok .west
  else if x_diff < 0 ∧ y_diff = 0 then .ok .east
  else .err "positions do not represent a supported direction"

/-- `SpaceState` enum (space.rs:45-49). -/
inductive SpaceState where
  | unchecked
  | checked (hit : Bool)
deriving DecidableEq, Repr

/-- `Space` struct (space.rs:1-4). -/
structure Space where
  state : SpaceState
  position : Pos
deriving DecidableEq, Repr

/-- `Space::new` (space.rs:7-12). -/
def Space.new (pos : Pos) : Space := ⟨.unchecked, pos⟩

/-- `Space::set_checked` (space.rs:19-26). -/
def Space.set_checked (s : Space) (hit : Bool) : RResult Space :=
  if s.state ≠ SpaceState.unchecked then .err "tried to check an already checked space"
  else .ok { s with state := .checked hit }

/-- `Space::is_unchecked` (space.rs:28-30). -/
def Space.is_unchecked (s : Space) : Bool := s.state == .unchecked

/-- `Space::is_empty` (space.rs:32-34). -/
def Space.is_empty (s : Space) : Bool := s.state == .checked false

/-- `Space::is_hit` (space.rs:36-38). -/
def Space.is_hit (s : Space) : Bool := s.state == .checked true

/-- Modelled from the spec: `Space::all_grid_spaces` is called by `Player::new`
(player.rs:16) but its definition is missing from the provided sources.  The spec's
data model says a Player owns a "grid of Space (one per cell, size = width*height)".
Cells are generated column by column, so that on a square grid the index of cell
(x, y) agrees with `Player.space_index`. -/
def Space.all_grid_spaces (grid_size : Pos) : List Space :=
  (List.range grid_size.1).flatMap
    (fun x => (List.range grid_size.2).map (fun y => Space.new (x, y)))

/-- `ShipState` enum (ship.rs:128-133). -/
inductive ShipState where
  | placement | active | sunk
deriving DecidableEq, Repr

/-- `Ship` struct (ship.rs:3-7). -/
structure Ship where
  state : ShipState
  position : List Pos
  dir : Direction
deriving DecidableEq, Repr

/-- `Ship::new` (ship.rs:11-19).  The source evaluates `&pos[1]` (and `&pos[0]`)
unconditionally, so a vector with fewer than two elements panics on the index. -/
def Ship.new (pos : List Pos) : RResult Ship :=
  match pos with
  | p0 :: p1 :: rest =>
    match Direction.from_positions p1 p0 with
    | .panics => .panics
    | .err e => .err e
    | .ok d => .ok ⟨.placement, p0 :: p1 :: rest, d⟩
  | _ => .panics

/-- One iteration of the validation loop body in `Ship::set_pos` (ship.rs:42-57) for
the consecutive pair `(a, b) = (pos[i], pos[i+1])`: adjacency first, then direction
consistency; `.ok false` means the loop sets `valid = false` and breaks. -/
def Ship.pairCheck (dir : Direction) (a b : Pos) : RResult Bool :=
  let x_diff := natAbsDiff a.1 b.1
  let y_diff := natAbsDiff a.2 b.2
  if x_diff + y_diff ≠ 1 then .ok false
  else
    match Direction.from_positions b a with
    | .panics => .panics
    | .err e => .err e
    | .ok next_dir => .ok (next_dir == dir)

/-- The validation loop of `Ship::set_pos` (ship.rs:42-57) over all consecutive
pairs of the position list. -/
def Ship.lineCheck (dir : Direction) : List Pos → RResult Bool
  | a :: b :: rest =>
    match Ship.pairCheck dir a b with
    | .panics => .panics
    | .err e => .err e
    | .ok true => Ship.lineCheck dir (b :: rest)
    | .ok false => .ok false
  | _ => .ok true

/-- `Ship::set_pos` (ship.rs:31-70).  The source computes
`Direction::from_positions(&pos[1], &pos[0])` twice on the success path (lines 40
and 62) with the same value; it is computed once here. -/
def Ship.set_pos (s : Ship) (pos : List Pos) : RResult Ship :=
  match pos with
  | [] => .err "tried to set an empty position to a ship"
  | [p] => .ok { s with position := [p] }
  | p0 :: p1 :: rest =>
    match Direction.from_positions p1 p0 with
    | .panics => .panics
    | .err e => .err e
    | .ok dir =>
      match Ship.lineCheck dir (p0 :: p1 :: rest) with
      | .panics => .panics
      | .err e => .err e
      | .ok false => .err "ship position does not form a continuous line"
      | .ok true => .ok { s with position := p0 :: p1 :: rest, dir := dir }

/-- `Ship::len` (ship.rs:78-80). -/
def Ship.len (s : Ship) : Nat := s.position.length

/-- `Ship::is_placement` (ship.rs:83-85). -/
def Ship.is_placement (s : Ship) : Bool := s.state == .placement

/-- `Ship::is_active` (ship.rs:88-90). -/
def Ship.is_active (s : Ship) : Bool := s.state == .active

/-- `Ship::is_sunk` (ship.rs:108-110). -/
def Ship.is_sunk (s : Ship) : Bool := s.state == .sunk

/-- `Ship::set_active` (ship.rs:97-105). -/
def Ship.set_active (s : Ship) : RResult Ship :=
  if s.state ≠ ShipState.placement then
    .err "tried to set a ship as active that was not in placement state"
  else .ok { s with state := .active }

/-- `Ship::set_sunk` (ship.rs:117-125). -/
def Ship.set_sunk (s : Ship) : RResult Ship :=
  if s.state ≠ ShipState.active then .err "tried to sink a ship that was not active"
  else .ok { s with state := .sunk }

/-- `Player` struct (player.rs:4-10). -/
structure Player where
  is_cpu : Bool
  spaces : List Space
  ships : List Ship
  grid_size : Pos
  grid_cursor : Pos
deriving DecidableEq, Repr

/-- `Player::new` (player.rs:13-21).  `ship_count` only sets the vector capacity in
the source; the ship list starts empty. -/
def Player.new (grid_size : Pos) (is_cpu : Bool) : Player :=
  { is_cpu := is_cpu
    spaces := Space.all_grid_spaces grid_size
    ships := []
    grid_size := grid_size
    grid_cursor := (0, 0) }

/-- `Player::space_index` (player.rs:317-319):
`grid_size[0] as usize * pos[0] as usize + pos[1] as usize` (usize arithmetic, no
overflow for `u8` inputs). -/
def Player.space_index (p : Player) (pos : Pos) : Nat :=
  p.grid_size.1 * pos.1 + pos.2

/-- `Player::space` (player.rs:312-314) before the `.unwrap()`:
`self.spaces.get(self.space_index(pos))`. -/
def Player.spaceAt (p : Player) (pos : Pos) : Option Space :=
  p.spaces.get? (p.space_index pos)

/-- `Player::select_space` (player.rs:28-34).  `self.spaces[space_index]` panics if
the index is out of range; `ship_hit` scans every ship regardless of lifecycle. -/
def Player.select_space (p : Player) (pos : Pos) : RResult Player :=
  let space_index := p.space_index pos
  let ship_hit := p.ships.any (fun s => s.position.contains pos)
  match p.spaces.get? space_index with
  | none => .panics
  | some sp =>
    match sp.set_checked ship_hit with
    | .panics => .panics
    | .err e => .err e
    | .ok sp2 => .ok { p with spaces := p.spaces.set space_index sp2 }

/-- The `all` fold in `Player::sink_ship_if_all_hit` (player.rs:45-48):
`ship.pos().iter().all(|p| self.space(p).is_hit())`, short-circuiting at the first
non-hit cell and panicking if `space` unwraps `None`. -/
def Player.allCellsHit (p : Player) : List Pos → RResult Bool
  | [] => .ok true
  | c :: cs =>
    match p.spaceAt c with
    | none => .panics
    | some sp => if sp.is_hit then Player.allCellsHit p cs else .ok false

/-- `Player::sink_ship_if_all_hit` (player.rs:43-58).  Returns the Rust result
together with the post-state of the player (unchanged on every error path, which the
caller `Game::select_space` keeps using). -/
def Player.sink_ship_if_all_hit (p : Player) (pos : Pos) : RResult Bool × Player :=
  match p.ships.findIdx? (fun s => s.position.contains pos) with
  | none => (.err "no ship at the given position", p)
  | some index =>
    match p.ships.get? index with
    | none => (.panics, p)
    | some ship =>
      match p.allCellsHit ship.position with
      | .panics => (.panics, p)
      | .err e => (.err e, p)
      | .ok false => (.ok false, p)
      | .ok true =>
        match ship.set_sunk with
        | .panics => (.panics, p)
        | .err e => (.err e, p)
        | .ok ship2 => (.ok true, { p with ships := p.ships.set index ship2 })

/-- `Player::all_ships_sunk` (player.rs:61-63). -/
def Player.all_ships_sunk (p : Player) : Bool :=
  p.ships.all (fun ship => ship.is_sunk)

/-- `Player::ship` (player.rs:276-278). -/
def Player.shipAt (p : Player) (pos : Pos) : Option Ship :=
  p.ships.find? (fun s => s.position.contains pos)

/-- `Player::movement` (player.rs:323-340).  The `grid_size[0] - 1` / `grid_size[1] - 1`
guards are `u8` subtractions; they agree with the truncated `Nat` subtraction here
whenever the grid dimensions are positive, which every theorem below assumes. -/
def Player.movement (p : Player) (pos : Pos) (direction : Direction) : Option Pos :=
  match direction with
  | .north => if pos.2 > 0 then some (pos.1, pos.2 - 1) else none
  | .east => if pos.1 < p.grid_size.1 - 1 then some (pos.1 + 1, pos.2) else none
  | .south => if pos.2 < p.grid_size.2 - 1 then some (pos.1, pos.2 + 1) else none
  | .west => if pos.1 > 0 then some (pos.1 - 1, pos.2) else none

/-- The `while let` loop of `Player::find_unchecked_space` (player.rs:352-366).
`fuel` bounds the iteration count; each iteration advances one cell in a fixed
direction inside the `u8` grid, so `grid_size.1 + grid_size.2 + 1` iterations can
never be reached and the `fuel = 0` branch is dead for the initial fuel used below. -/
def Player.findLoop (p : Player) (direction : Direction) : Nat → Option Pos → RResult (Option Pos)
  | _, none => .ok none
  | 0, some next_pos => .ok (some next_pos)
  | fuel + 1, some next_pos =>
    match p.spaceAt next_pos with
    | none => .panics
    | some next_space =>
      if next_space.is_hit then
        Player.findLoop p direction fuel (p.movement next_pos direction)
      else if ¬ next_space.is_unchecked then .ok none
      else .ok (some next_pos)

/-- `Player::find_unchecked_space` (player.rs:346-379).  The trailing
`self.movement(&unchecked, opposite_dir).unwrap()` panics when the backward step is
impossible. -/
def Player.find_unchecked_space (p : Player) (pos : Pos) (direction : Direction)
    (check_for_line : Bool) : RResult (Option Pos) :=
  match p.findLoop direction (p.grid_size.1 + p.grid_size.2 + 1) (p.movement pos direction) with
  | .panics => .panics
  | .err e => .err e
  | .ok check_pos =>
    if check_for_line then
      match check_pos with
      | none => .ok none
      | some unchecked =>
        match p.movement unchecked direction.opposite with
        | none => .panics
        | some prev_pos => .ok (if prev_pos = pos then none else some unchecked)
    else .ok check_pos

/-- The `hit_spaces` filter of `Player::suggested_checks` (player.rs:73-77):
`s.is_hit() && self.ship(s.pos()).unwrap().is_active()`; the `unwrap` panics when a
hit space belongs to no ship. -/
def Player.hitActiveSpaces (p : Player) : List Space → RResult (List Space)
  | [] => .ok []
  | s :: rest =>
    if s.is_hit then
      match p.shipAt s.position with
      | none => .panics
      | some sh =>
        match Player.hitActiveSpaces p rest with
        | .panics => .panics
        | .err e => .err e
        | .ok tail => .ok (if sh.is_active then s :: tail else tail)
    else Player.hitActiveSpaces p rest

/-- The inner direction loop of the line-extension phase of
`Player::suggested_checks` (player.rs:80-90): candidates are pushed only if not
already present. -/
def Player.phase1Dirs (p : Player) (pos : Pos) (sel : List Pos) :
    List Direction → RResult (List Pos)
  | [] => .ok sel
  | d :: ds =>
    match p.find_unchecked_space pos d true with
    | .panics => .panics
    | .err e => .err e
    | .ok none => p.phase1Dirs pos sel ds
    | .ok (some q) =>
      p.phase1Dirs pos (if sel.contains q then sel else sel ++ [q]) ds

/-- The outer loop over hit spaces of the line-extension phase (player.rs:80-90). -/
def Player.phase1Hits (p : Player) (sel : List Pos) : List Space → RResult (List Pos)
  | [] => .ok sel
  | s :: rest =>
    match p.phase1Dirs s.position sel Direction.all with
    | .panics => .panics
    | .err e => .err e
    | .ok sel2 => p.phase1Hits sel2 rest

/-- The widen phase of `Player::suggested_checks` (player.rs:94-102): unchecked
neighbours of the first hit space, pushed without a duplicate check. -/
def Player.phase2Dirs (p : Player) (pos : Pos) (sel : List Pos) :
    List Direction → RResult (List Pos)
  | [] => .ok sel
  | d :: ds =>
    match p.find_unchecked_space pos d false with
    | .panics => .panics
    | .err e => .err e
    | .ok none => p.phase2Dirs pos sel ds
    | .ok (some q) => p.phase2Dirs pos (sel ++ [q]) ds

/-- `Player::suggested_checks` (player.rs:70-116). -/
def Player.suggested_checks (p : Player) : RResult (List Pos) :=
  match p.hitActiveSpaces p.spaces with
  | .panics => .panics
  | .err e => .err e
  | .ok hit_spaces =>
    match p.phase1Hits [] hit_spaces with
    | .panics => .panics
    | .err e => .err e
    | .ok sel1 =>
      let afterPhase2 :=
        match hit_spaces with
        | [] => RResult.ok sel1
        | h0 :: _ =>
          if sel1.isEmpty then p.phase2Dirs h0.position sel1 Direction.all
          else .ok sel1
      match afterPhase2 with
      | .panics => .panics
      | .err e => .err e
      | .ok sel2 =>
        if sel2.isEmpty then
          .ok ((p.spaces.filter (fun space => space.is_unchecked)).map
            (fun space => space.position))
        else .ok sel2

/-- `Player::get_ship_position` (player.rs:225-256).  The `head[1] + length` bound
checks are `u8` additions in the source; they cannot overflow for the grid sizes and
ship lengths the theorems below quantify over.  `length - 1` and `head - pos` are
guarded subtractions exactly as in the source. -/
def Player.get_ship_position (p : Player) (head : Pos) (direction : Direction)
    (length : Nat) : Option (List Pos) :=
  let valid : Bool :=
    match direction with
    | .north => head.2 + length ≤ p.grid_size.2
    | .east => head.1 ≥ length - 1
    | .south => head.2 ≥ length - 1
    | .west => head.1 + length ≤ p.grid_size.1
  if valid then
    some ((List.range length).map (fun i =>
      match direction with
      | .north => (head.1, head.2 + i)
      | .east => (head.1 - i, head.2)
      | .south => (head.1, head.2 - i)
      | .west => (head.1 + i, head.2)))
  else none

/-- `Player::move_placement_ship` (player.rs:154-171).  `self.ships.len() - 1`
underflows for a player with no ships and the subsequent index panics; similarly
`pos()[0]` panics on a ship with an empty position list. -/
def Player.move_placement_ship (p : Player) (direction : Direction) : RResult Player :=
  match p.ships.getLast? with
  | none => .panics
  | some ship =>
    match ship.position.head? with
    | none => .panics
    | some old_head =>
      match p.movement old_head direction with
      | none => .err "movement not possible without going out of bounds"
      | some new_head =>
        match p.get_ship_position new_head ship.dir ship.len with
        | none => .err "movement not possible without going out of bounds"
        | some ship_pos =>
          match ship.set_pos ship_pos with
          | .panics => .panics
          | .err e => .err e
          | .ok ship2 => .ok { p with ships := p.ships.set (p.ships.length - 1) ship2 }

/-- `Player::set_grid_cursor` (player.rs:406-414): only the flattened index is
bounds-checked, not the coordinates themselves. -/
def Player.set_grid_cursor (p : Player) (pos : Pos) : RResult Player :=
  if p.space_index pos < p.spaces.length then .ok { p with grid_cursor := pos }
  else .err "tried to set the grid cursor to a nonexistent space"

/-- `Player::move_grid_cursor` (player.rs:391-399). -/
def Player.move_grid_cursor (p : Player) (direction : Direction) : RResult Player :=
  match p.movement p.grid_cursor direction with
  | some new_cursor => p.set_grid_cursor new_cursor
  | none => .err "tried to move grid cursor out of bounds"

/-- `GameSettings` struct (settings.rs). -/
structure GameSettings where
  spaces : Pos
  ships : List Nat
deriving DecidableEq, Repr

/-- `GameState` enum (game.rs:235-240). -/
inductive GameState where
  | placement | active | complete
deriving DecidableEq, Repr

/-- `Game` struct (game.rs:6-11).  The two-element array `players: [Player; 2]` is a
pair; `turn: u8` is a `Nat`. -/
structure Game where
  settings : GameSettings
  players : Player × Player
  state : GameState
  turn : Nat
deriving DecidableEq, Repr

/-- `Game::not_turn` (game.rs:93-95). -/
def Game.not_turn (g : Game) : Nat := (g.turn + 1) % 2

/-- `self.players[self.not_turn()]` (game.rs:205): `not_turn` is always `< 2`, so
this array access cannot panic. -/
def Game.opponent (g : Game) : Player :=
  if g.not_turn = 0 then g.players.1 else g.players.2

/-- Writing back `self.players[self.not_turn()]`. -/
def Game.setOpponent (g : Game) (p : Player) : Game :=
  if g.not_turn = 0 then { g with players := (p, g.players.2) }
  else { g with players := (g.players.1, p) }

/-- `Game::switch_active_player` (game.rs:98-100). -/
def Game.switch_active_player (g : Game) : Game :=
  { g with turn := g.not_turn }

/-- `Game::get_winner` (game.rs:120-125). -/
def Game.get_winner (g : Game) : Option Nat :=
  match g.state with
  | .complete => some g.turn
  | _ => none

/-- `Game::select_space` (game.rs:204-219).  The sink result is compared against
`Ok(true)`; an `Err` from `sink_ship_if_all_hit` is swallowed, but a panic inside it
is a panic of the whole call. -/
def Game.select_space (g : Game) (pos : Pos) : RResult Game :=
  match g.opponent.select_space pos with
  | .panics => .panics
  | .err e => .err e
  | .ok opp1 =>
    let sunk := opp1.sink_ship_if_all_hit pos
    match sunk.1 with
    | .panics => .panics
    | r =>
      let g2 := g.setOpponent sunk.2
      if r = .ok true then
        .ok { g2 with state := if sunk.2.all_ships_sunk then .complete else .active }
      else .ok g2

/-!
### Spec-side predicates

These follow the words of the specification (not the source) and are only used to
compare the source's behaviour against the spec's description.
-/

/-- Spec side: the direction of a move of exactly one unit along a single axis from
`a` to `b`, oriented like `Direction::from_positions(b, a)`; `none` when `b` is not
one unit away from `a` along a single axis. -/
def specPairDir (a b : Pos) : Option Direction :=
  if a.1 = b.1 ∧ b.2 = a.2 + 1 then some .north
  else if a.1 = b.1 ∧ a.2 = b.2 + 1 then some .south
  else if b.2 = a.2 ∧ b.1 = a.1 + 1 then some .west
  else if b.2 = a.2 ∧ a.1 = b.1 + 1 then some .east
  else none

/-- Spec side: every consecutive pair is a one-unit step in direction `d`. -/
def specLineFrom (d : Direction) : List Pos → Bool
  | a :: b :: rest => (specPairDir a b == some d) && specLineFrom d (b :: rest)
  | _ => true

/-- Spec side: the straight-contiguous-line invariant: every consecutive pair of
cells differs by exactly one unit along a single axis, with the same direction
across all pairs. -/
def specStraightLine : List Pos → Bool
  | a :: b :: rest =>
    match specPairDir a b with
    | none => false
    | some d => specLineFrom d (b :: rest)
  | _ => true

/-!
### Grid well-formedness

`Player::new` builds the space vector with `Space::all_grid_spaces`, and the other
`Player` operations address it through `space_index`.  `Player.wf` captures the
states such a player can be in: a square, positive grid whose space at flat index
`i` sits at cell `(i / n, i % n)` (the states of the spaces are unconstrained).
`space_index` is only a faithful cell addressing on square grids — see the C8
theorem for what happens on a non-square grid. -/
def Player.wf (p : Player) : Prop :=
  p.grid_size.2 = p.grid_size.1 ∧ 0 < p.grid_size.1 ∧
  p.spaces.length = p.grid_size.1 * p.grid_size.2 ∧
  ∀ i, i < p.spaces.length →
    (p.spaces.get? i).map Space.position = some (i / p.grid_size.2, i % p.grid_size.2)

instance (p : Player) : Decidable p.wf := by
  unfold Player.wf
  infer_instance

/-- A position lies on the player's grid. -/
def Player.inGrid (p : Player) (q : Pos) : Prop :=
  q.1 < p.grid_size.1 ∧ q.2 < p.grid_size.2

instance (p : Player) (q : Pos) : Decidable (p.inGrid q) := by
  unfold Player.inGrid
  infer_instance

/-- A 2x2 player holding a single Placement-lifecycle ship on `(0,0)`, `(1,0)`
(counterexample data for C2). -/
def c2Player : Player :=
  { is_cpu := false
    spaces := Space.all_grid_spaces (2, 2)
    ships := [⟨.placement, [(0, 0), (1, 0)], .west⟩]
    grid_size := (2, 2)
    grid_cursor := (0, 0) }

/-- A 2x2 opponent one hit away from losing its only ship (witness data for C1). -/
def gwOpponent : Player :=
  { is_cpu := true
    spaces := [⟨.checked true, (0, 0)⟩, ⟨.unchecked, (0, 1)⟩,
               ⟨.unchecked, (1, 0)⟩, ⟨.unchecked, (1, 1)⟩]
    ships := [⟨.active, [(0, 0), (0, 1)], .north⟩]
    grid_size := (2, 2)
    grid_cursor := (0, 0) }

/-- An active game in which player 0 is about to sink `gwOpponent`'s last ship
(witness data for C1). -/
def gw : Game :=
  { settings := ⟨(2, 2), [2]⟩
    players := (Player.new (2, 2) false, gwOpponent)
    state := .active
    turn := 0 }

/-- The game state after the winning selection in `gw` (witness data for C1). -/
def gwAfter : Game :=
  match gw.select_space (0, 1) with
  | .ok g => g
  | _ => gw

/-- A 7x7 player whose only hit cell is `(5,5)`, owned by an Active ship, with all
four orthogonal neighbours Unchecked (witness data for C4). -/
def c4Player : Player :=
  { is_cpu := true
    spaces := (Space.all_grid_spaces (7, 7)).map
      (fun s => if s.position = (5, 5) then ⟨.checked true, s.position⟩ else s)
    ships := [⟨.active, [(5, 5), (5, 6)], .north⟩]
    grid_size := (7, 7)
    grid_cursor := (0, 0) }

/-!
### Helper lemmas
-/

theorem mul_add_div_self (n x y : Nat) (hy : y < n) : (n * x + y) / n = x := by
  rw [Nat.mul_add_div (by omega), Nat.div_eq_of_lt hy]
  omega

theorem mul_add_mod_self (n x y : Nat) (hy : y < n) : (n * x + y) % n = y := by
  rw [Nat.mul_add_mod]
  exact Nat.mod_eq_of_lt hy

theorem index_lt_sq (n x y : Nat) (hx : x < n) (hy : y < n) : n * x + y < n * n := by
  have h1 : n * x ≤ n * (n - 1) := Nat.mul_le_mul_left n (by omega)
  rw [Nat.mul_sub_one] at h1
  have h3 : n ≤ n * n := Nat.le_mul_of_pos_left n (by omega)
  omega

theorem Space.is_unchecked_iff (s : Space) : s.is_unchecked = true ↔ s.state = .unchecked := by
  simp [Space.is_unchecked]

theorem Space.is_hit_iff (s : Space) : s.is_hit = true ↔ s.state = .checked true := by
  simp [Space.is_hit]

theorem wf_index_lt (p : Player) (hwf : p.wf) (q : Pos) (hq : p.inGrid q) :
    p.space_index q < p.spaces.length := by
  obtain ⟨hsq, hn, hlen, _⟩ := hwf
  obtain ⟨hx, hy⟩ := hq
  rw [hlen, hsq]
  exact index_lt_sq p.grid_size.1 q.1 q.2 hx (hsq ▸ hy)

theorem wf_spaceAt (p : Player) (hwf : p.wf) (q : Pos) (hq : p.inGrid q) :
    ∃ sp, p.spaceAt q = some sp ∧ sp.position = q := by
  have hlt := wf_index_lt p hwf q hq
  obtain ⟨hsq, hn, hlen, hget⟩ := hwf
  obtain ⟨hx, hy⟩ := hq
  have h := hget (p.space_index q) hlt
  unfold Player.space_index at h
  rw [hsq] at h
  rw [mul_add_div_self _ _ _ (hsq ▸ hy), mul_add_mod_self _ _ _ (hsq ▸ hy)] at h
  obtain ⟨sp, hsp, hsppos⟩ := Option.map_eq_some'.mp h
  refine ⟨sp, ?_, hsppos⟩
  unfold Player.spaceAt Player.space_index
  exact hsp

theorem wf_mem_inGrid (p : Player) (hwf : p.wf) (s : Space) (hs : s ∈ p.spaces) :
    p.inGrid s.position := by
  obtain ⟨i, hi⟩ := List.mem_iff_get.mp hs
  obtain ⟨hsq, hn, hlen, hget⟩ := hwf
  have h := hget i i.isLt
  rw [List.get?_eq_get i.isLt, hi] at h
  simp only [Option.map_some'] at h
  have hpos : s.position = (↑i / p.grid_size.2, ↑i % p.grid_size.2) := by
    exact Option.some.inj h
  have hilt : (i : Nat) < p.grid_size.2 * p.grid_size.1 := by
    rw [Nat.mul_comm, ← hlen]
    exact i.isLt
  show s.position.1 < p.grid_size.1 ∧ s.position.2 < p.grid_size.2
  rw [hpos]
  refine ⟨Nat.div_lt_of_lt_mul hilt, Nat.mod_lt _ ?_⟩
  omega

theorem from_positions_ne_panics (a b : Pos) : Direction.from_positions a b ≠ .panics := by
  unfold Direction.from_positions
  dsimp only
  split_ifs <;> simp

theorem from_positions_ok_cases (a b : Pos) :
    (∃ d, Direction.from_positions a b = .ok d) ∨
      Direction.from_positions a b = .err "positions do not represent a supported direction" := by
  unfold Direction.from_positions
  dsimp only
  split_ifs <;> simp

/-!
### C5
-/

/-- C5 counterexample: the claim says `from_positions` returns `Ok` only when the
two points differ by exactly one unit along a single axis, but the source accepts
`(0,0)` and `(0,2)`, which differ by two units. -/
theorem from_positions_ok_at_two_unit_gap :
    Direction.from_positions ((0 : Nat), (0 : Nat)) ((0 : Nat), (2 : Nat)) =
      .ok Direction.south ∧
    natAbsDiff 0 0 + natAbsDiff 0 2 ≠ 1 := by decide

/-- C5 (amended): `Direction::from_positions(a, b)` returns `Ok` if and only if the
two points differ along exactly one axis, by any non-zero amount (not only by one
unit); otherwise it returns an error. -/
theorem from_positions_ok_iff (a b : Pos) :
    (∃ d, Direction.from_positions a b = .ok d) ↔
      ((a.1 = b.1 ∧ a.2 ≠ b.2) ∨ (a.2 = b.2 ∧ a.1 ≠ b.1)) := by
  unfold Direction.from_positions
  dsimp only
  split_ifs with h1 h2 h3 h4 <;> simp_all <;> omega

/-- Witness for C5: `from_positions` at the concrete axis-aligned pair `(1,1)`,
`(1,3)` succeeds. -/
theorem from_positions_ok_iff_witness :
    ∃ d, Direction.from_positions ((1 : Nat), (1 : Nat)) ((1 : Nat), (3 : Nat)) = .ok d :=
  (from_positions_ok_iff (1, 1) (1, 3)).mpr (by decide)

/-!
### C7
-/

/-- C7 counterexample: the claim says `Ship::new` fails with `InvalidLine` when the
first two cells are not unit-adjacent, but the source accepts the two-unit gap
`(0,0)`, `(0,2)`; moreover `Ship::new` panics (rather than stays total) on a
one-element position vector. -/
theorem ship_new_ok_at_non_adjacent :
    Ship.new [((0 : Nat), (0 : Nat)), ((0 : Nat), (2 : Nat))] =
      .ok ⟨.placement, [(0, 0), (0, 2)], .north⟩ ∧
    natAbsDiff 0 0 + natAbsDiff 0 2 ≠ 1 ∧
    Ship.new [((0 : Nat), (0 : Nat))] = .panics := by decide

/-- C7 (amended): `Ship::new(pos)` panics exactly when `pos` has fewer than two
cells (it indexes `pos[1]` unconditionally); for two or more cells it is total and
returns a `Placement` ship with the given position, and it returns an error exactly
when the first two cells do not differ along exactly one axis (axis-aligned gaps of
more than one unit are accepted). -/
theorem ship_new_spec (pos : List Pos) :
    (Ship.new pos = .panics ↔ pos.length < 2) ∧
    (∀ s, Ship.new pos = .ok s → s.state = .placement ∧ s.position = pos) ∧
    ((∃ e, Ship.new pos = .err e) ↔
      ∃ p0 p1 rest, pos = p0 :: p1 :: rest ∧
        ¬((p1.1 = p0.1 ∧ p1.2 ≠ p0.2) ∨ (p1.2 = p0.2 ∧ p1.1 ≠ p0.1))) := by
  match pos with
  | [] => refine ⟨by simp [Ship.new], by simp [Ship.new], by simp [Ship.new]⟩
  | [p] => refine ⟨by simp [Ship.new], by simp [Ship.new], by simp [Ship.new]⟩
  | p0 :: p1 :: rest =>
    rcases h : Direction.from_positions p1 p0 with _ | e | d
    · exact absurd h (from_positions_ne_panics p1 p0)
    · refine ⟨by simp [Ship.new, h], by simp [Ship.new, h], ?_⟩
      have hno : ¬∃ d, Direction.from_positions p1 p0 = .ok d := by
        rw [h]; simp
      rw [from_positions_ok_iff] at hno
      simp only [Ship.new, h]
      constructor
      · intro _
        exact ⟨p0, p1, rest, rfl, hno⟩
      · intro _
        exact ⟨e, rfl⟩
    · have hok : ∃ d', Direction.from_positions p1 p0 = .ok d' := ⟨d, h⟩
      rw [from_positions_ok_iff] at hok
      refine ⟨by simp [Ship.new, h], ?_, ?_⟩
      · intro s hs
        simp only [Ship.new, h] at hs
        cases hs
        exact ⟨rfl, rfl⟩
      · simp only [Ship.new, h]
        constructor
        · intro ⟨e, he⟩
          cases he
        · rintro ⟨q0, q1, qrest, heq, hbad⟩
          cases heq
          exact absurd hok hbad

/-- Witness for C7: the amended claim evaluated at the concrete vertical pair
`(2,2)`, `(2,3)`. -/
theorem ship_new_spec_witness :
    Ship.new [((2 : Nat), (2 : Nat)), ((2 : Nat), (3 : Nat))] = .panics ↔
      ([((2 : Nat), (2 : Nat)), ((2 : Nat), (3 : Nat))] : List Pos).length < 2 :=
  (ship_new_spec [(2, 2), (2, 3)]).1

/-!
### Movement and search-loop lemmas (for C3 and C4)
-/

theorem movement_inGrid (p : Player) (q r : Pos) (d : Direction)
    (hq : p.inGrid q) (h : p.movement q d = some r) : p.inGrid r := by
  obtain ⟨hx, hy⟩ := hq
  cases d <;> unfold Player.movement at h <;> dsimp only at h <;>
    split_ifs at h with hg <;> cases h <;> exact ⟨by omega, by omega⟩

theorem movement_back (p : Player) (q r : Pos) (d : Direction)
    (hq : p.inGrid q) (h : p.movement q d = some r) :
    p.movement r d.opposite = some q := by
  obtain ⟨hx, hy⟩ := hq
  cases d with
  | north =>
    unfold Player.movement at h
    dsimp only at h
    split_ifs at h with hg
    cases h
    show p.movement (q.1, q.2 - 1) Direction.south = some q
    unfold Player.movement
    dsimp only
    rw [if_pos (show q.2 - 1 < p.grid_size.2 - 1 by omega),
      show q.2 - 1 + 1 = q.2 by omega]
  | east =>
    unfold Player.movement at h
    dsimp only at h
    split_ifs at h with hg
    cases h
    show p.movement (q.1 + 1, q.2) Direction.west = some q
    unfold Player.movement
    dsimp only
    rw [if_pos (show q.1 + 1 > 0 by omega), show q.1 + 1 - 1 = q.1 by omega]
  | south =>
    unfold Player.movement at h
    dsimp only at h
    split_ifs at h with hg
    cases h
    show p.movement (q.1, q.2 + 1) Direction.north = some q
    unfold Player.movement
    dsimp only
    rw [if_pos (show q.2 + 1 > 0 by omega), show q.2 + 1 - 1 = q.2 by omega]
  | west =>
    unfold Player.movement at h
    dsimp only at h
    split_ifs at h with hg
    cases h
    show p.movement (q.1 - 1, q.2) Direction.east = some q
    unfold Player.movement
    dsimp only
    rw [if_pos (show q.1 - 1 < p.grid_size.1 - 1 by omega),
      show q.1 - 1 + 1 = q.1 by omega]

/-- Distance to the grid edge in the walking direction: an upper bound on the
number of loop iterations of `find_unchecked_space`. -/
def distToEdge (p : Player) (q : Pos) : Direction → Nat
  | .north => q.2
  | .east => p.grid_size.1 - 1 - q.1
  | .south => p.grid_size.2 - 1 - q.2
  | .west => q.1

theorem movement_dist (p : Player) (q r : Pos) (d : Direction)
    (h : p.movement q d = some r) :
    distToEdge p r d < distToEdge p q d := by
  cases d <;> unfold Player.movement at h <;> dsimp only at h <;>
    split_ifs at h with hg <;> cases h <;> unfold distToEdge <;> dsimp only <;> omega

theorem findLoop_spec (p : Player) (hwf : p.wf) (d : Direction) :
    ∀ (fuel : Nat) (start : Pos), p.inGrid start → distToEdge p start d < fuel →
      p.findLoop d fuel (p.movement start d) = .ok none ∨
      (∃ u sp, p.findLoop d fuel (p.movement start d) = .ok (some u) ∧ p.inGrid u ∧
        p.spaceAt u = some sp ∧ sp.is_unchecked = true ∧
        ∃ prev, p.movement u d.opposite = some prev) := by
  intro fuel
  induction fuel with
  | zero =>
    intro start _ hdist
    exact absurd hdist (Nat.not_lt_zero _)
  | succ n ih =>
    intro start hs hdist
    cases hm : p.movement start d with
    | none =>
      left
      rw [Player.findLoop]
    | some next =>
      have hnext : p.inGrid next := movement_inGrid p start next d hs hm
      obtain ⟨sp, hsp, hsppos⟩ := wf_spaceAt p hwf next hnext
      rw [Player.findLoop, hsp]
      dsimp only
      cases hhit : sp.is_hit
      · rw [if_neg (by simp [hhit])]
        cases hun : sp.is_unchecked
        · left
          rw [if_pos (by simp [hun])]
        · right
          refine ⟨next, sp, ?_, hnext, hsp, hun, start, movement_back p start next d hs hm⟩
          rw [if_neg (by simp [hun])]
      · rw [if_pos (by simp [hhit])]
        have hd2 : distToEdge p next d < n := by
          have := movement_dist p start next d hm
          omega
        exact ih next hnext hd2

theorem dist_lt_fuel (p : Player) (q : Pos) (d : Direction) (hq : p.inGrid q) :
    distToEdge p q d < p.grid_size.1 + p.grid_size.2 + 1 := by
  obtain ⟨hx, hy⟩ := hq
  cases d <;> simp only [distToEdge] <;> omega

/-- What a candidate cell means: an in-grid position whose space is unchecked. -/
def UncheckedCell (p : Player) (q : Pos) : Prop :=
  p.inGrid q ∧ ∃ sp, p.spaceAt q = some sp ∧ sp.is_unchecked = true

theorem find_unchecked_spec (p : Player) (hwf : p.wf) (start : Pos) (d : Direction)
    (cl : Bool) (hs : p.inGrid start) :
    p.find_unchecked_space start d cl = .ok none ∨
    (∃ u, p.find_unchecked_space start d cl = .ok (some u) ∧ UncheckedCell p u) := by
  unfold Player.find_unchecked_space
  rcases findLoop_spec p hwf d (p.grid_size.1 + p.grid_size.2 + 1) start hs
      (dist_lt_fuel p start d hs) with h | ⟨u, sp, hfl, hu, hsp, hun, prev, hback⟩
  · rw [h]
    cases cl <;> simp
  · cases cl
    · rw [hfl]
      dsimp only
      rw [if_neg (by simp)]
      right
      exact ⟨u, rfl, hu, sp, hsp, hun⟩
    · rw [hfl]
      dsimp only
      rw [if_pos rfl]
      rw [hback]
      dsimp only
      by_cases hpeq : prev = start
      · left
        rw [if_pos hpeq]
      · right
        refine ⟨u, ?_, hu, sp, hsp, hun⟩
        rw [if_neg hpeq]

theorem phase1Dirs_spec (p : Player) (hwf : p.wf) (pos : Pos) (hpos : p.inGrid pos) :
    ∀ (ds : List Direction) (sel : List Pos), (∀ q ∈ sel, UncheckedCell p q) →
      ∃ sel2, p.phase1Dirs pos sel ds = .ok sel2 ∧ ∀ q ∈ sel2, UncheckedCell p q := by
  intro ds
  induction ds with
  | nil => exact fun sel hsel => ⟨sel, rfl, hsel⟩
  | cons d ds ih =>
    intro sel hsel
    simp only [Player.phase1Dirs]
    rcases find_unchecked_spec p hwf pos d true hpos with h | ⟨u, hf, hcell⟩
    · rw [h]
      exact ih sel hsel
    · rw [hf]
      dsimp only
      by_cases hc : sel.contains u = true
      · rw [if_pos hc]
        exact ih sel hsel
      · rw [if_neg hc]
        refine ih (sel ++ [u]) ?_
        intro q hq
        rcases List.mem_append.mp hq with h1 | h2
        · exact hsel q h1
        · rw [List.mem_singleton] at h2
          rw [h2]
          exact hcell

theorem phase2Dirs_spec (p : Player) (hwf : p.wf) (pos : Pos) (hpos : p.inGrid pos) :
    ∀ (ds : List Direction) (sel : List Pos), (∀ q ∈ sel, UncheckedCell p q) →
      ∃ sel2, p.phase2Dirs pos sel ds = .ok sel2 ∧ ∀ q ∈ sel2, UncheckedCell p q := by
  intro ds
  induction ds with
  | nil => exact fun sel hsel => ⟨sel, rfl, hsel⟩
  | cons d ds ih =>
    intro sel hsel
    simp only [Player.phase2Dirs]
    rcases find_unchecked_spec p hwf pos d false hpos with h | ⟨u, hf, hcell⟩
    · rw [h]
      exact ih sel hsel
    · rw [hf]
      dsimp only
      refine ih (sel ++ [u]) ?_
      intro q hq
      rcases List.mem_append.mp hq with h1 | h2
      · exact hsel q h1
      · rw [List.mem_singleton] at h2
        rw [h2]
        exact hcell

theorem phase1Hits_spec (p : Player) (hwf : p.wf) :
    ∀ (hits : List Space) (sel : List Pos), (∀ s ∈ hits, p.inGrid s.position) →
      (∀ q ∈ sel, UncheckedCell p q) →
      ∃ sel2, p.phase1Hits sel hits = .ok sel2 ∧ ∀ q ∈ sel2, UncheckedCell p q := by
  intro hits
  induction hits with
  | nil => exact fun sel _ hsel => ⟨sel, rfl, hsel⟩
  | cons s rest ih =>
    intro sel hgrid hsel
    obtain ⟨sel1, h1, hs1⟩ :=
      phase1Dirs_spec p hwf s.position (hgrid s (by simp)) Direction.all sel hsel
    simp only [Player.phase1Hits]
    rw [h1]
    dsimp only
    exact ih sel1 (fun t ht => hgrid t (by simp [ht])) hs1

theorem hitActiveSpaces_spec (p : Player) :
    ∀ l : List Space, (∀ s ∈ l, s.is_hit = true → (p.shipAt s.position).isSome = true) →
      ∃ hits, p.hitActiveSpaces l = .ok hits ∧ ∀ s ∈ hits, s ∈ l := by
  intro l
  induction l with
  | nil => exact fun _ => ⟨[], rfl, by simp⟩
  | cons s rest ih =>
    intro hl
    obtain ⟨hits, hh, hmem⟩ := ih (fun t ht hhit => hl t (by simp [ht]) hhit)
    simp only [Player.hitActiveSpaces]
    cases hhit : s.is_hit
    · rw [if_neg (by simp [hhit])]
      exact ⟨hits, hh, fun t ht => List.mem_cons_of_mem s (hmem t ht)⟩
    · rw [if_pos (by simp [hhit])]
      have hsome := hl s (by simp) hhit
      obtain ⟨sh, hsh⟩ := Option.isSome_iff_exists.mp hsome
      rw [hsh]
      dsimp only
      rw [hh]
      dsimp only
      refine ⟨if sh.is_active then s :: hits else hits, rfl, ?_⟩
      intro t ht
      cases hact : sh.is_active
      · rw [hact] at ht
        rw [if_neg (by simp)] at ht
        exact List.mem_cons_of_mem s (hmem t ht)
      · rw [hact] at ht
        rw [if_pos rfl] at ht
        rcases List.mem_cons.mp ht with h1 | h2
        · simp [h1]
        · exact List.mem_cons_of_mem s (hmem t h2)

theorem uncheckedCell_mem_spaces (p : Player) (hwf : p.wf) (q : Pos)
    (h : UncheckedCell p q) : ∃ sp ∈ p.spaces, sp.position = q ∧ sp.is_unchecked = true := by
  obtain ⟨hin, sp, hsp, hun⟩ := h
  obtain ⟨sp', hsp', hpos'⟩ := wf_spaceAt p hwf q hin
  rw [hsp] at hsp'
  have hspeq : sp = sp' := Option.some.inj hsp'
  subst hspeq
  exact ⟨sp, List.get?_mem hsp, hpos', hun⟩

theorem suggestedFinal_spec (p : Player) (hwf : p.wf) (sel : List Pos)
    (hs : ∀ q ∈ sel, UncheckedCell p q) :
    ∃ l, (if sel.isEmpty then
        RResult.ok ((p.spaces.filter (fun space => space.is_unchecked)).map
          (fun space => space.position))
      else RResult.ok sel) = .ok l ∧
      (∀ q ∈ l, ∃ sp ∈ p.spaces, sp.position = q ∧ sp.is_unchecked = true) ∧
      ((∃ sp ∈ p.spaces, sp.is_unchecked = true) → l ≠ []) := by
  by_cases he : sel.isEmpty = true
  · rw [if_pos he]
    refine ⟨_, rfl, ?_, ?_⟩
    · intro q hq
      obtain ⟨sp, hsp, hspq⟩ := List.mem_map.mp hq
      obtain ⟨hmem, hun⟩ := List.mem_filter.mp hsp
      exact ⟨sp, hmem, hspq, by simpa using hun⟩
    · rintro ⟨sp, hmem, hun⟩ hnil
      rw [List.map_eq_nil_iff] at hnil
      have hin : sp ∈ p.spaces.filter (fun space => space.is_unchecked) :=
        List.mem_filter.mpr ⟨hmem, by simpa using hun⟩
      rw [hnil] at hin
      cases hin
  · rw [if_neg he]
    refine ⟨sel, rfl, fun q hq => uncheckedCell_mem_spaces p hwf q (hs q hq), fun _ hnil => ?_⟩
    rw [hnil] at he
    exact he rfl

/-!
### C3
-/

/-- C3: on a well-formed grid, for a player in a reachable state (every hit space
belongs to some ship — the invariant `select_space` maintains, which the source's
`unwrap` relies on), `suggested_checks` returns without panicking, every returned
position is an Unchecked cell of the player's grid, and the returned list is
non-empty whenever at least one Unchecked cell exists. -/
theorem suggested_checks_spec (p : Player) (hwf : p.wf)
    (hinv : ∀ s ∈ p.spaces, s.is_hit = true → (p.shipAt s.position).isSome = true) :
    ∃ l, p.suggested_checks = .ok l ∧
      (∀ q ∈ l, ∃ sp ∈ p.spaces, sp.position = q ∧ sp.is_unchecked = true) ∧
      ((∃ sp ∈ p.spaces, sp.is_unchecked = true) → l ≠ []) := by
  obtain ⟨hits, hhok, hhmem⟩ := hitActiveSpaces_spec p p.spaces hinv
  have hgrid : ∀ s ∈ hits, p.inGrid s.position :=
    fun s hs => wf_mem_inGrid p hwf s (hhmem s hs)
  obtain ⟨sel1, h1, hs1⟩ := phase1Hits_spec p hwf hits [] hgrid (by simp)
  unfold Player.suggested_checks
  rw [hhok]
  dsimp only
  rw [h1]
  dsimp only
  cases hits with
  | nil =>
    dsimp only
    exact suggestedFinal_spec p hwf sel1 hs1
  | cons h0 rest =>
    dsimp only
    by_cases he : sel1.isEmpty = true
    · rw [if_pos he]
      obtain ⟨sel2, h2, hs2⟩ :=
        phase2Dirs_spec p hwf h0.position (hgrid h0 (by simp)) Direction.all sel1 hs1
      rw [h2]
      dsimp only
      exact suggestedFinal_spec p hwf sel2 hs2
    · rw [if_neg he]
      dsimp only
      exact suggestedFinal_spec p hwf sel1 hs1

/-- Witness for C3: a fresh 2x2 player with no ships and no checked cells; all
four cells are unchecked and all four are suggested. -/
theorem suggested_checks_spec_witness :
    ∃ l, (Player.new (2, 2) false).suggested_checks = .ok l ∧
      (∀ q ∈ l, ∃ sp ∈ (Player.new (2, 2) false).spaces,
        sp.position = q ∧ sp.is_unchecked = true) ∧
      ((∃ sp ∈ (Player.new (2, 2) false).spaces, sp.is_unchecked = true) → l ≠ []) :=
  suggested_checks_spec (Player.new (2, 2) false) (by decide) (by decide)

/-!
### C4
-/

theorem unchecked_not_hit (s : Space) (h : s.is_unchecked = true) : s.is_hit = false := by
  rw [Space.is_unchecked_iff] at h
  simp [Space.is_hit, h]

theorem find_one_step (p : Player) (pos nb : Pos) (d : Direction)
    (hm : p.movement pos d = some nb) (sp : Space) (hsp : p.spaceAt nb = some sp)
    (hun : sp.is_unchecked = true) (hback : p.movement nb d.opposite = some pos) :
    p.find_unchecked_space pos d true = .ok none ∧
    p.find_unchecked_space pos d false = .ok (some nb) := by
  have hloop : p.findLoop d (p.grid_size.1 + p.grid_size.2 + 1) (p.movement pos d)
      = .ok (some nb) := by
    rw [hm, Player.findLoop, hsp]
    dsimp only
    rw [if_neg (by simp [unchecked_not_hit sp hun]), if_neg (by simp [hun])]
  constructor
  · unfold Player.find_unchecked_space
    rw [hloop]
    dsimp only
    rw [if_pos rfl]
    rw [hback]
    dsimp only
    rw [if_pos rfl]
  · unfold Player.find_unchecked_space
    rw [hloop]
    dsimp only
    rw [if_neg (by simp)]

theorem wf_get_pos (p : Player) (hwf : p.wf) (i : Nat) (hi : i < p.spaces.length) :
    ∃ sp, p.spaces.get? i = some sp ∧
      sp.position = (i / p.grid_size.2, i % p.grid_size.2) := by
  obtain ⟨_, _, _, hget⟩ := hwf
  obtain ⟨sp, hsp, hpos⟩ := Option.map_eq_some'.mp (hget i hi)
  exact ⟨sp, hsp, hpos⟩

theorem wf_index_eq (p : Player) (hwf : p.wf) (i j : Fin p.spaces.length)
    (h : (p.spaces.get i).position = (p.spaces.get j).position) : i = j := by
  obtain ⟨sp1, hsp1, hpos1⟩ := wf_get_pos p hwf i i.isLt
  obtain ⟨sp2, hsp2, hpos2⟩ := wf_get_pos p hwf j j.isLt
  rw [List.get?_eq_get i.isLt] at hsp1
  rw [List.get?_eq_get j.isLt] at hsp2
  have e1 : p.spaces.get i = sp1 := Option.some.inj hsp1
  have e2 : p.spaces.get j = sp2 := Option.some.inj hsp2
  have hpair : ((i : Nat) / p.grid_size.2, (i : Nat) % p.grid_size.2) =
      ((j : Nat) / p.grid_size.2, (j : Nat) % p.grid_size.2) := by
    rw [← hpos1, ← hpos2, ← e1, ← e2]
    exact h
  have hdiv := congrArg Prod.fst hpair
  have hmod := congrArg Prod.snd hpair
  dsimp only at hdiv hmod
  refine Fin.ext ?_
  calc (i : Nat) = p.grid_size.2 * ((i : Nat) / p.grid_size.2) + (i : Nat) % p.grid_size.2 :=
        (Nat.div_add_mod _ _).symm
    _ = p.grid_size.2 * ((j : Nat) / p.grid_size.2) + (j : Nat) % p.grid_size.2 := by
        rw [hdiv, hmod]
    _ = j := Nat.div_add_mod _ _

theorem wf_spaces_nodup (p : Player) (hwf : p.wf) : p.spaces.Nodup := by
  rw [List.nodup_iff_injective_get]
  intro i j hg
  exact wf_index_eq p hwf i j (by rw [hg])

theorem wf_pos_determines (p : Player) (hwf : p.wf) (s1 s2 : Space)
    (h1 : s1 ∈ p.spaces) (h2 : s2 ∈ p.spaces) (hp : s1.position = s2.position) :
    s1 = s2 := by
  obtain ⟨i, hi⟩ := List.mem_iff_get.mp h1
  obtain ⟨j, hj⟩ := List.mem_iff_get.mp h2
  have hij : i = j := wf_index_eq p hwf i j (by rw [hi, hj]; exact hp)
  rw [← hi, ← hj, hij]

theorem filter_unique (l : List Space) (pred : Space → Bool) (a : Space)
    (hmem : a ∈ l) (hpa : pred a = true) (hnd : l.Nodup)
    (huniq : ∀ x ∈ l, pred x = true → x = a) : l.filter pred = [a] := by
  induction l with
  | nil => cases hmem
  | cons b rest ih =>
    rw [List.filter_cons]
    have hnd2 := List.nodup_cons.mp hnd
    rcases List.mem_cons.mp hmem with hba | hmem2
    · rw [← hba]
      rw [if_pos (by simp [hpa])]
      have hrest : rest.filter pred = [] := by
        rw [List.filter_eq_nil_iff]
        intro x hx hpx
        have hxa : x = a := huniq x (List.mem_cons_of_mem b hx) (by simpa using hpx)
        rw [hxa, hba] at hx
        exact hnd2.1 hx
      rw [hrest]
    · have hpb : pred b = false := by
        cases hpbv : pred b
        · rfl
        · exfalso
          have hba := huniq b (by simp) hpbv
          rw [hba] at hnd2
          exact hnd2.1 hmem2
      rw [if_neg (by simp [hpb])]
      exact ih hmem2 hnd2.2 (fun x hx hpx => huniq x (List.mem_cons_of_mem b hx) hpx)

theorem hitActive_unique (p : Player) (q : Pos) (sh : Ship)
    (hsh : p.shipAt q = some sh) (hact : sh.is_active = true) :
    ∀ l : List Space, (∀ s ∈ l, s.is_hit = true → s.position = q) →
      p.hitActiveSpaces l = .ok (l.filter (fun s => s.is_hit)) := by
  intro l
  induction l with
  | nil => intro _; rfl
  | cons s rest ih =>
    intro hl
    simp only [Player.hitActiveSpaces]
    rw [List.filter_cons]
    cases hhit : s.is_hit
    · rw [if_neg (by simp [hhit]), if_neg (by simp [hhit])]
      exact ih (fun t ht => hl t (List.mem_cons_of_mem s ht))
    · rw [if_pos (by simp [hhit]), if_pos (by simp [hhit])]
      have hpos := hl s (by simp) hhit
      rw [hpos, hsh]
      dsimp only
      rw [ih (fun t ht => hl t (List.mem_cons_of_mem s ht))]
      dsimp only
      rw [hact, if_pos rfl]

/-- C4: for any player on a well-formed grid whose only hit cell is `(5,5)`, whose
owning ship is Active, and whose four orthogonal neighbours are in-bounds and
Unchecked, `suggested_checks` returns exactly the four orthogonal neighbours of
`(5,5)` (in the fixed direction order north, east, south, west) and nothing else:
the line-extension phase contributes nothing and the widen phase fires. -/
theorem suggested_checks_single_hit (p : Player) (hwf : p.wf)
    (hn : 7 ≤ p.grid_size.1)
    (hhits : ∀ s ∈ p.spaces, s.is_hit = true ↔ s.position = ((5 : Nat), (5 : Nat)))
    (hship : ∃ sh, p.shipAt (5, 5) = some sh ∧ sh.is_active = true)
    (hnb : ∀ q ∈ [((5 : Nat), (4 : Nat)), ((6 : Nat), (5 : Nat)),
        ((5 : Nat), (6 : Nat)), ((4 : Nat), (5 : Nat))],
      ∃ sp, p.spaceAt q = some sp ∧ sp.is_unchecked = true) :
    p.suggested_checks = .ok [(5, 4), (6, 5), (5, 6), (4, 5)] := by
  obtain ⟨sh, hsh, hact⟩ := hship
  have hsq : p.grid_size.2 = p.grid_size.1 := hwf.1
  have hin55 : p.inGrid (5, 5) := ⟨by omega, by omega⟩
  obtain ⟨s55, hs55, hs55pos⟩ := wf_spaceAt p hwf (5, 5) hin55
  have hs55mem : s55 ∈ p.spaces := List.get?_mem hs55
  have hs55hit : s55.is_hit = true := (hhits s55 hs55mem).mpr hs55pos
  have hfilter : p.spaces.filter (fun s => s.is_hit) = [s55] := by
    apply filter_unique p.spaces _ s55 hs55mem hs55hit (wf_spaces_nodup p hwf)
    intro x hx hpx
    exact wf_pos_determines p hwf x s55 hx hs55mem (by rw [(hhits x hx).mp hpx, hs55pos])
  have hha : p.hitActiveSpaces p.spaces = .ok [s55] := by
    rw [hitActive_unique p (5, 5) sh hsh hact p.spaces
      (fun s hs hhit => (hhits s hs).mp hhit), hfilter]
  have hm5 : (5 : Nat) < p.grid_size.1 - 1 := by omega
  have hm5s : (5 : Nat) < p.grid_size.2 - 1 := by omega
  have hmN : p.movement (5, 5) Direction.north = some (5, 4) := by
    simp [Player.movement]
  have hmE : p.movement (5, 5) Direction.east = some (6, 5) := by
    simp [Player.movement, hm5]
  have hmS : p.movement (5, 5) Direction.south = some (5, 6) := by
    simp [Player.movement, hm5s]
  have hmW : p.movement (5, 5) Direction.west = some (4, 5) := by
    simp [Player.movement]
  have hbN := movement_back p (5, 5) (5, 4) .north hin55 hmN
  have hbE := movement_back p (5, 5) (6, 5) .east hin55 hmE
  have hbS := movement_back p (5, 5) (5, 6) .south hin55 hmS
  have hbW := movement_back p (5, 5) (4, 5) .west hin55 hmW
  obtain ⟨spN, hspN, hunN⟩ := hnb (5, 4) (by simp)
  obtain ⟨spE, hspE, hunE⟩ := hnb (6, 5) (by simp)
  obtain ⟨spS, hspS, hunS⟩ := hnb (5, 6) (by simp)
  obtain ⟨spW, hspW, hunW⟩ := hnb (4, 5) (by simp)
  have hN := find_one_step p (5, 5) (5, 4) .north hmN spN hspN hunN hbN
  have hE := find_one_step p (5, 5) (6, 5) .east hmE spE hspE hunE hbE
  have hS := find_one_step p (5, 5) (5, 6) .south hmS spS hspS hunS hbS
  have hW := find_one_step p (5, 5) (4, 5) .west hmW spW hspW hunW hbW
  have hph1 : p.phase1Dirs (5, 5) [] Direction.all = .ok [] := by
    simp only [Direction.all, Player.phase1Dirs, hN.1, hE.1, hS.1, hW.1]
  have hph1h : p.phase1Hits [] [s55] = .ok [] := by
    simp only [Player.phase1Hits, hs55pos, hph1]
  have hph2 : p.phase2Dirs (5, 5) [] Direction.all =
      .ok [(5, 4), (6, 5), (5, 6), (4, 5)] := by
    simp only [Direction.all, Player.phase2Dirs, hN.2, hE.2, hS.2, hW.2]
    rfl
  unfold Player.suggested_checks
  rw [hha]
  dsimp only
  rw [hph1h]
  dsimp only
  rw [if_pos (show (List.isEmpty ([] : List Pos)) = true from rfl), hs55pos, hph2]
  dsimp only
  rw [if_neg (by simp)]

/-- Witness for C4: the concrete 7x7 player `c4Player` with its single hit at
`(5,5)`. -/
theorem suggested_checks_single_hit_witness :
    c4Player.suggested_checks = .ok [(5, 4), (6, 5), (5, 6), (4, 5)] :=
  suggested_checks_single_hit c4Player (by decide) (by decide) (by decide)
    (by decide) (by decide)

/-!
### C1
-/

theorem player_select_space_ok_ships (p : Player) (pos : Pos) (p2 : Player)
    (h : p.select_space pos = .ok p2) : p2.ships = p.ships := by
  unfold Player.select_space at h
  dsimp only at h
  rcases hget : p.spaces.get? (p.space_index pos) with _ | sp
  · rw [hget] at h
    simp at h
  · rw [hget] at h
    dsimp only at h
    rcases hchk : sp.set_checked (p.ships.any fun s => s.position.contains pos) with _ | e | sp2
    · rw [hchk] at h
      simp at h
    · rw [hchk] at h
      simp at h
    · rw [hchk] at h
      dsimp only at h
      cases h
      rfl

theorem sink_pair_cases (p : Player) (pos : Pos) :
    (p.sink_ship_if_all_hit pos).1 = .ok true ∨ (p.sink_ship_if_all_hit pos).2 = p := by
  unfold Player.sink_ship_if_all_hit
  cases hidx : p.ships.findIdx? (fun s => s.position.contains pos) with
  | none => exact Or.inr rfl
  | some index =>
    dsimp only
    cases hget : p.ships.get? index with
    | none => exact Or.inr rfl
    | some ship =>
      dsimp only
      cases hall : p.allCellsHit ship.position with
      | panics => exact Or.inr rfl
      | err e => exact Or.inr rfl
      | ok b =>
        cases b with
        | false => exact Or.inr rfl
        | true =>
          dsimp only
          cases hsunk : ship.set_sunk with
          | panics => exact Or.inr rfl
          | err e => exact Or.inr rfl
          | ok ship2 => exact Or.inl rfl

theorem sink_snd_of_not_sunk (p : Player) (pos : Pos)
    (h : (p.sink_ship_if_all_hit pos).1 ≠ .ok true) :
    (p.sink_ship_if_all_hit pos).2 = p := by
  rcases sink_pair_cases p pos with h1 | h2
  · exact absurd h1 h
  · exact h2

theorem setOpponent_opponent (g : Game) (q : Player) : (g.setOpponent q).opponent = q := by
  unfold Game.setOpponent
  split_ifs with h
  · unfold Game.opponent Game.not_turn
    unfold Game.not_turn at h
    dsimp only
    rw [if_pos h]
  · unfold Game.opponent Game.not_turn
    unfold Game.not_turn at h
    dsimp only
    rw [if_neg h]

theorem setOpponent_state (g : Game) (q : Player) : (g.setOpponent q).state = g.state := by
  unfold Game.setOpponent
  split_ifs <;> rfl

theorem setOpponent_turn (g : Game) (q : Player) : (g.setOpponent q).turn = g.turn := by
  unfold Game.setOpponent
  split_ifs <;> rfl

/-- C1: from an `Active` game in which the targeted player still has unsunk ships
(the invariant of `Active` states), an `Ok` return of `Game::select_space` leaves
the phase `Complete` if and only if the targeted (inactive) player's
`all_ships_sunk()` now holds, and in that case the winner reported by
`get_winner` is the attacker's index, which the call did not change. -/
theorem game_select_space_phase (g : Game) (pos : Pos) (g2 : Game)
    (hA : g.state = .active)
    (hNS : g.opponent.all_ships_sunk = false)
    (hok : g.select_space pos = .ok g2) :
    (g2.state = .complete ↔ g2.opponent.all_ships_sunk = true) ∧
    (g2.state = .complete → g2.get_winner = some g.turn ∧ g2.turn = g.turn) := by
  unfold Game.select_space at hok
  rcases hsel : g.opponent.select_space pos with _ | e | opp1
  · rw [hsel] at hok
    simp at hok
  · rw [hsel] at hok
    simp at hok
  · rw [hsel] at hok
    dsimp only at hok
    have hships : opp1.ships = g.opponent.ships :=
      player_select_space_ok_ships _ _ _ hsel
    have hsunk1 : opp1.all_ships_sunk = false := by
      unfold Player.all_ships_sunk
      rw [hships]
      exact hNS
    rcases hr : (opp1.sink_ship_if_all_hit pos).1 with _ | e | b
    · rw [hr] at hok
      simp at hok
    · rw [hr] at hok
      dsimp only at hok
      rw [if_neg (by simp)] at hok
      have hsnd : (opp1.sink_ship_if_all_hit pos).2 = opp1 :=
        sink_snd_of_not_sunk _ _ (by rw [hr]; simp)
      cases hok
      rw [setOpponent_state, setOpponent_opponent, hA, hsnd]
      constructor
      · simp [hsunk1]
      · intro hc
        cases hc
    · rcases b with _ | _
      · rw [hr] at hok
        dsimp only at hok
        rw [if_neg (by simp)] at hok
        have hsnd : (opp1.sink_ship_if_all_hit pos).2 = opp1 :=
          sink_snd_of_not_sunk _ _ (by rw [hr]; simp)
        cases hok
        rw [setOpponent_state, setOpponent_opponent, hA, hsnd]
        constructor
        · simp [hsunk1]
        · intro hc
          cases hc
      · rw [hr] at hok
        dsimp only at hok
        rw [if_pos rfl] at hok
        have hg2state : g2.state = (if (opp1.sink_ship_if_all_hit pos).2.all_ships_sunk
            then GameState.complete else .active) := by
          cases hok
          rfl
        have hg2opp : g2.opponent = (opp1.sink_ship_if_all_hit pos).2 := by
          cases hok
          exact setOpponent_opponent g _
        have hg2turn : g2.turn = g.turn := by
          cases hok
          exact setOpponent_turn g _
        constructor
        · rw [hg2state, hg2opp]
          cases hall : (opp1.sink_ship_if_all_hit pos).2.all_ships_sunk
          · simp
          · simp
        · intro hst
          refine ⟨?_, hg2turn⟩
          unfold Game.get_winner
          rw [hst]
          dsimp only
          rw [hg2turn]

/-- Witness for C1: the concrete game `gw`, in which player 0 selects `(0,1)` and
sinks the opponent's last ship. -/
theorem game_select_space_phase_witness :
    gw.state = .active ∧ gw.opponent.all_ships_sunk = false ∧
    ((gwAfter.state = .complete ↔ gwAfter.opponent.all_ships_sunk = true) ∧
      (gwAfter.state = .complete → gwAfter.get_winner = some gw.turn ∧
        gwAfter.turn = gw.turn)) :=
  ⟨rfl, by decide, game_select_space_phase gw (0, 1) gwAfter rfl (by decide) (by decide)⟩

/-!
### C2
-/

/-- C2 counterexample: the claim says `hit` is true iff an Active or Sunk ship
occupies the position, but `Player::select_space` scans every ship regardless of
lifecycle: selecting `(0,0)` on a player whose only ship there is still in the
Placement state records a hit. -/
theorem select_space_counts_placement_ships :
    c2Player.select_space (0, 0) =
      .ok { c2Player with spaces := c2Player.spaces.set 0 ⟨.checked true, (0, 0)⟩ } ∧
    (∀ s ∈ c2Player.ships, s.is_active = false ∧ s.is_sunk = false) := by
  decide

/-- C2 (amended): on a well-formed (square) grid and an in-bounds position, a
space sits at that position; if it is unchecked, `select_space` marks it
`Checked(hit)` where `hit` is true iff **any** ship — in any lifecycle state,
Placement included — occupies the position, and changes nothing else; if it was
already checked, `select_space` returns the AlreadyChecked error. -/
theorem player_select_space_spec (p : Player) (pos : Pos) (hwf : p.wf)
    (hin : p.inGrid pos) :
    (∃ sp, p.spaceAt pos = some sp ∧ sp.position = pos) ∧
    (∀ sp, p.spaceAt pos = some sp → sp.is_unchecked = true →
      ∃ p' hit, p.select_space pos = .ok p' ∧
        p'.spaceAt pos = some ⟨.checked hit, pos⟩ ∧
        (hit = true ↔ ∃ s ∈ p.ships, pos ∈ s.position) ∧
        p'.ships = p.ships ∧ p'.grid_cursor = p.grid_cursor ∧ p'.grid_size = p.grid_size ∧
        (∀ j, j ≠ p.space_index pos → p'.spaces.get? j = p.spaces.get? j)) ∧
    (∀ sp, p.spaceAt pos = some sp → sp.is_unchecked = false →
      ∃ e, p.select_space pos = .err e) := by
  obtain ⟨sp0, hsp0, hpos0⟩ := wf_spaceAt p hwf pos hin
  have hlt : p.space_index pos < p.spaces.length := wf_index_lt p hwf pos hin
  refine ⟨⟨sp0, hsp0, hpos0⟩, ?_, ?_⟩
  · intro sp hsp hun
    have hspeq : sp = sp0 := by
      rw [hsp0] at hsp
      exact (Option.some.inj hsp).symm
    subst hspeq
    unfold Player.spaceAt at hsp0
    refine ⟨{ p with spaces := p.spaces.set (p.space_index pos) ⟨.checked (p.ships.any fun s => s.position.contains pos), sp.position⟩ }, p.ships.any fun s => s.position.contains pos, ?_, ?_, ?_, rfl, rfl, rfl, ?_⟩
    · unfold Player.select_space
      dsimp only
      rw [hsp0]
      unfold Space.set_checked
      dsimp only
      rw [(Space.is_unchecked_iff sp).mp hun]
      simp
    · have hlt2 : p.grid_size.1 * pos.1 + pos.2 < p.spaces.length := by
        have h := hlt
        unfold Player.space_index at h
        exact h
      unfold Player.spaceAt Player.space_index
      dsimp only
      rw [List.get?_eq_getElem?, List.getElem?_set_self', List.getElem?_eq_getElem hlt2]
      simp [hpos0, Function.const_apply]
    · simp [List.any_eq_true]
    · intro j hj
      dsimp only
      simp [List.get?_eq_getElem?, List.getElem?_set_ne (Ne.symm hj)]
  · intro sp hsp hchk
    have hspne : sp.state ≠ SpaceState.unchecked := by
      intro hstate
      rw [(Space.is_unchecked_iff sp).mpr hstate] at hchk
      cases hchk
    refine ⟨"tried to check an already checked space", ?_⟩
    unfold Player.select_space
    dsimp only
    unfold Player.spaceAt at hsp
    rw [hsp]
    unfold Space.set_checked
    dsimp only
    rw [if_pos hspne]

/-- Witness for C2: selecting the unchecked cell `(0,1)` on a fresh 2x2 player. -/
theorem player_select_space_spec_witness :
    ∃ p' hit, (Player.new (2, 2) false).select_space (0, 1) = .ok p' ∧
      p'.spaceAt (0, 1) = some ⟨.checked hit, (0, 1)⟩ ∧
      (hit = true ↔ ∃ s ∈ (Player.new (2, 2) false).ships, ((0, 1) : Pos) ∈ s.position) ∧
      p'.ships = (Player.new (2, 2) false).ships ∧
      p'.grid_cursor = (Player.new (2, 2) false).grid_cursor ∧
      p'.grid_size = (Player.new (2, 2) false).grid_size ∧
      (∀ j, j ≠ (Player.new (2, 2) false).space_index (0, 1) →
        p'.spaces.get? j = (Player.new (2, 2) false).spaces.get? j) := by
  have h := (player_select_space_spec (Player.new (2, 2) false) (0, 1)
    (by decide) (by decide)).2.1
  exact h ⟨.unchecked, (0, 1)⟩ (by decide) (by decide)

/-!
### C6
-/

theorem pairCheck_eq (d : Direction) (a b : Pos) :
    Ship.pairCheck d a b = .ok (specPairDir a b == some d) := by
  unfold Ship.pairCheck specPairDir natAbsDiff Direction.from_positions
  dsimp only
  split_ifs <;> simp_all <;> omega

theorem specPairDir_some_from_positions (a b : Pos) (d : Direction)
    (h : specPairDir a b = some d) : Direction.from_positions b a = .ok d := by
  unfold specPairDir at h
  unfold Direction.from_positions
  dsimp only
  split_ifs at h <;> cases h <;> split_ifs <;> simp_all

theorem lineCheck_eq (d : Direction) : ∀ l, Ship.lineCheck d l = .ok (specLineFrom d l)
  | [] => rfl
  | [_] => rfl
  | a :: b :: rest => by
    rw [Ship.lineCheck, pairCheck_eq, specLineFrom]
    cases h : (specPairDir a b == some d)
    · simp
    · simp only [Bool.true_and]
      exact lineCheck_eq d (b :: rest)

theorem specStraightLine_of_ok (p0 p1 : Pos) (rest : List Pos) (dir : Direction)
    (h : Direction.from_positions p1 p0 = .ok dir) :
    specStraightLine (p0 :: p1 :: rest) = specLineFrom dir (p0 :: p1 :: rest) := by
  rw [specStraightLine, specLineFrom]
  cases hd : specPairDir p0 p1 with
  | none => simp
  | some d0 =>
    have := specPairDir_some_from_positions p0 p1 d0 hd
    rw [h] at this
    cases this
    simp

/-- C6: `Ship::set_pos(pos)` succeeds if and only if `pos` is non-empty and either
is a single cell or forms a straight contiguous line (every consecutive pair one
unit apart along a single axis, same direction throughout); on success the stored
position is `pos`, the direction is recomputed from the first two cells (and left
unchanged for a single cell), the lifecycle is untouched, and the call never
panics, so a failing call leaves the ship unchanged. -/
theorem ship_set_pos_spec (s : Ship) (pos : List Pos) :
    ((∃ s2, s.set_pos pos = .ok s2) ↔
      (pos ≠ [] ∧ (pos.length = 1 ∨ specStraightLine pos = true))) ∧
    (∀ s2, s.set_pos pos = .ok s2 →
      s2.position = pos ∧ s2.state = s.state ∧
      (∀ p0 p1 rest, pos = p0 :: p1 :: rest → Direction.from_positions p1 p0 = .ok s2.dir) ∧
      (pos.length = 1 → s2.dir = s.dir)) ∧
    s.set_pos pos ≠ .panics := by
  match pos with
  | [] =>
    refine ⟨by simp [Ship.set_pos], by simp [Ship.set_pos], by simp [Ship.set_pos]⟩
  | [p] =>
    refine ⟨by simp [Ship.set_pos], ?_, by simp [Ship.set_pos]⟩
    intro s2 hs2
    simp only [Ship.set_pos] at hs2
    cases hs2
    refine ⟨rfl, rfl, ?_, ?_⟩
    · intro p0 p1 rest h
      cases h
    · intro _
      rfl
  | p0 :: p1 :: rest =>
    rcases h : Direction.from_positions p1 p0 with _ | e | dir
    · exact absurd h (from_positions_ne_panics p1 p0)
    · have hnone : specPairDir p0 p1 = none := by
        cases hd : specPairDir p0 p1 with
        | none => rfl
        | some d0 =>
          have := specPairDir_some_from_positions p0 p1 d0 hd
          rw [h] at this
          cases this
      refine ⟨?_, by simp [Ship.set_pos, h], by simp [Ship.set_pos, h]⟩
      simp [Ship.set_pos, h, specStraightLine, hnone]
    · rw [specStraightLine_of_ok p0 p1 rest dir h] at *
      cases hline : specLineFrom dir (p0 :: p1 :: rest) with
      | false =>
        refine ⟨?_, ?_, ?_⟩
        · simp [Ship.set_pos, h, lineCheck_eq, hline]
        · simp [Ship.set_pos, h, lineCheck_eq, hline]
        · simp [Ship.set_pos, h, lineCheck_eq, hline]
      | true =>
        refine ⟨?_, ?_, ?_⟩
        · simp [Ship.set_pos, h, lineCheck_eq, hline]
        · intro s2 hs2
          simp only [Ship.set_pos, h, lineCheck_eq, hline] at hs2
          cases hs2
          refine ⟨rfl, rfl, ?_, by simp⟩
          intro q0 q1 qrest heq
          cases heq
          exact h
        · simp [Ship.set_pos, h, lineCheck_eq, hline]

/-- Witness for C6: moving a ship onto the concrete straight horizontal run
`(1,0), (2,0), (3,0)` succeeds. -/
theorem ship_set_pos_spec_witness :
    ∃ s2, (⟨ShipState.placement, [((0 : Nat), (0 : Nat)), (0, 1)], Direction.north⟩ :
      Ship).set_pos [((1 : Nat), (0 : Nat)), (2, 0), (3, 0)] = .ok s2 :=
  ((ship_set_pos_spec _ _).1).mpr (by decide)

/-!
### C8
-/

/-- C8 (code bug): the claim (and the source's own doc comments) say the public
`Player` operations return typed results and never panic, but
`move_placement_ship` panics on a player with no ships (`ships.len() - 1`
underflows, then the index is out of range) even though its doc comment promises an
error, and `select_space` panics on the in-bounds cell `(2,0)` of a 3-wide, 2-high
grid because `space_index` computes `3*2+0 = 6` in a 6-element space vector. -/
theorem player_public_ops_can_panic :
    Player.move_placement_ship (Player.new (10, 10) false) Direction.north = .panics ∧
    Player.select_space (Player.new (3, 2) false) (2, 0) = .panics ∧
    (2 < (Player.new (3, 2) false).grid_size.1 ∧ 0 < (Player.new (3, 2) false).grid_size.2) := by
  decide

/-!
### C9
-/

/-- C9 (code bug): `set_grid_cursor` only bounds-checks the flattened space index,
so on a 10x10 grid it accepts `(0,15)` (index 15 < 100) and leaves the grid cursor
on a cell that is out of bounds and that belongs to no space, although its doc
comment promises an error when no space exists at the position. -/
theorem set_grid_cursor_breaks_invariant :
    Player.set_grid_cursor (Player.new (10, 10) false) (0, 15) =
      .ok { Player.new (10, 10) false with grid_cursor := (0, 15) } ∧
    ¬((15 : Nat) < (Player.new (10, 10) false).grid_size.2) ∧
    (∀ s ∈ (Player.new (10, 10) false).spaces, s.position ≠ (0, 15)) := by
  decide

/-!
### C10
-/

/-- C10: `switch_active_player` flips `turn` to the other player index and leaves
the phase, the players and the settings unchanged; after the game is `Complete`
this changes which player `get_winner` reports. -/
theorem switch_active_player_spec (g : Game) (h : g.turn < 2) :
    (g.switch_active_player).turn = 1 - g.turn ∧
    (g.switch_active_player).state = g.state ∧
    (g.switch_active_player).players = g.players ∧
    (g.switch_active_player).settings = g.settings ∧
    (g.state = GameState.complete →
      (g.switch_active_player).get_winner = some (1 - g.turn) ∧
      (g.switch_active_player).get_winner ≠ g.get_winner) := by
  unfold Game.switch_active_player Game.not_turn
  refine ⟨by simp; omega, rfl, rfl, rfl, ?_⟩
  intro hc
  simp only [Game.get_winner, hc]
  constructor
  · simp; omega
  · simp; omega

/-- Witness for C10: a complete game with `turn = 0`; switching makes player 1 the
reported winner. -/
theorem switch_active_player_witness :
    (Game.switch_active_player
        ⟨⟨(10, 10), [2, 3, 4, 5]⟩, (Player.new (10, 10) false, Player.new (10, 10) true),
          GameState.complete, 0⟩).turn = 1 - 0 ∧
    (Game.switch_active_player
        ⟨⟨(10, 10), [2, 3, 4, 5]⟩, (Player.new (10, 10) false, Player.new (10, 10) true),
          GameState.complete, 0⟩).state = GameState.complete ∧
    (Game.switch_active_player
        ⟨⟨(10, 10), [2, 3, 4, 5]⟩, (Player.new (10, 10) false, Player.new (10, 10) true),
          GameState.complete, 0⟩).get_winner = some 1 := by
  have h := switch_active_player_spec
    ⟨⟨(10, 10), [2, 3, 4, 5]⟩, (Player.new (10, 10) false, Player.new (10, 10) true),
      GameState.complete, 0⟩ (by decide)
  exact ⟨h.1, h.2.1, (h.2.2.2.2 rfl).1⟩

end Battleship
